import Mathlib

/-!
Shallow embedding of the salesperson demo script (src/salesperson.py):
an in-memory SQLite store accessed through a record-store session that
creates the `salesperson` table, inserts three names inside an explicit
transaction, and reads rows back as a first record and as a list of
column-name-to-value mappings built by a mutate-and-reuse accumulator.
-/

namespace Salesperson

/-- Error kinds surfaced by the backend (spec section 7). -/
inductive DBError
  | schemaConflict
  | storeUnavailable
  deriving DecidableEq, Repr

/-- One row of the `salesperson` table: `id INTEGER` (rowid-aliased primary
key, backend assigned), `name VARCHAR`. -/
structure SalespersonRecord where
  id : Int
  name : String
  deriving DecidableEq, Repr

/-- Visible store state: whether `CREATE TABLE "salesperson"` has run, and the
table contents in rowid order (the order an unfiltered SQLite scan yields). -/
structure Store where
  tableExists : Bool
  rows : List SalespersonRecord
  deriving DecidableEq, Repr

def emptyStore : Store := ⟨false, []⟩

/-- Source lines 3-6: `CREATE TABLE "salesperson" (id INTEGER NOT NULL, name
VARCHAR, PRIMARY KEY (id))` with no IF NOT EXISTS, so SQLite rejects a second
creation of the same table and leaves the store untouched. -/
def initializeSchema (s : Store) : Store × Option DBError :=
  if s.tableExists then (s, some .schemaConflict)
  else ({ s with tableExists := true }, none)

/-- SQLite rowid assignment for an INSERT that omits the INTEGER PRIMARY KEY
column: one greater than the largest id currently in the table (1 when the
table is empty, since the fold starts at 0). -/
def nextId (rows : List SalespersonRecord) : Int :=
  (rows.map SalespersonRecord.id).foldl max 0 + 1

/-- Source lines 14-15: the multi-row `INSERT INTO "salesperson" (name) VALUES
...` statement; the caller supplies only names, each row receives the
backend-assigned id in insertion order. -/
def insertRows (rows : List SalespersonRecord) : List String → List SalespersonRecord
  | [] => rows
  | n :: rest => insertRows (rows ++ [⟨nextId rows, n⟩]) rest

/-- A connection: the committed (reader-visible) store plus the state staged
inside an open transaction, if any. -/
structure Conn where
  committed : Store
  pending : Option Store
  deriving DecidableEq, Repr

/-- Source line 13: `trans = conn.begin()`. -/
def beginTxn (c : Conn) : Conn := { c with pending := some c.committed }

/-- Source line 16: `trans.commit()` publishes the staged state. -/
def commitTxn (c : Conn) : Conn :=
  match c.pending with
  | some st => { committed := st, pending := none }
  | none => c

/-- Rollback: the staged state is discarded, committed state untouched. -/
def rollbackTxn (c : Conn) : Conn := { c with pending := none }

/-- Source line 14: `conn.execute(INSERT ...)`. Inside a transaction the
statement applies to the staged state; it fails (with no effect, a failed
single statement being atomic) when the target table does not exist. -/
def execInsert (c : Conn) (names : List String) : Conn × Option DBError :=
  match c.pending with
  | some st =>
      if st.tableExists then
        ({ c with pending := some { st with rows := insertRows st.rows names } }, none)
      else (c, some .schemaConflict)
  | none =>
      if c.committed.tableExists then
        ({ c with committed := { c.committed with rows := insertRows c.committed.rows names } },
          none)
      else (c, some .schemaConflict)

/-- Modelled from the spec: the script (source lines 12-16) hard-codes one
successful begin / multi-row-insert / commit sequence and has no failure
handling and no empty-batch case; the generalized operation
`insertRecordsTransactionally(names)` — the empty sequence as a no-op that
opens no transaction, and the automatic rollback before a failed insert is
surfaced — follows spec sections 4.1 and 7. -/
def insertRecordsTransactionally (c : Conn) (names : List String) :
    Conn × Option DBError :=
  if names.isEmpty then (c, none)
  else
    match execInsert (beginTxn c) names with
    | (c2, none) => (commitTxn c2, none)
    | (c2, some e) => (rollbackTxn c2, some e)

/-- Source line 19: `SELECT * FROM salesperson LIMIT 1` followed by
`.fetchone()`: `none` (not an error) on an empty table, else the first row of
the backend scan. -/
def fetchFirstRecord (s : Store) : Except DBError (Option SalespersonRecord) :=
  if s.tableExists then .ok s.rows.head? else .error .schemaConflict

/-- A cell value as returned by the driver: integer ids, text names. -/
inductive Value
  | intV (i : Int)
  | strV (s : String)
  deriving DecidableEq, Repr

def Value.isInt : Value → Bool
  | .intV _ => true
  | .strV _ => false

/-- A Python dict as the driver and the script see it: an insertion-ordered
association list with distinct keys. -/
abbrev Dict := List (String × Value)

def hasKey (d : Dict) (k : String) : Bool := d.any (fun p => p.1 == k)

/-- Source line 30: `d = \x7b**d, **\x7bcolumn:value\x7d\x7d` — Python dict
merge builds a NEW dict: an existing key is updated in place (keeping its
position), a new key is appended. -/
def dictMergeOne (d : Dict) (k : String) (v : Value) : Dict :=
  if hasKey d k then d.map (fun p => if p.1 == k then (k, v) else p)
  else d ++ [(k, v)]

def dictLookup (d : Dict) (k : String) : Option Value :=
  (d.find? (fun p => p.1 == k)).map Prod.snd

/-- Source line 28: `rowproxy.items()` yields the (column, value) pairs of the
row in column order: id first, then name. -/
def rowItems (r : SalespersonRecord) : List (String × Value) :=
  [("id", .intV r.id), ("name", .strV r.name)]

/-- Source lines 27-31, one iteration of the outer loop: widen the carried
dict `d` once per column of the current row, then append the result to `a`. -/
def accumStep (acc : Dict × List Dict) (r : SalespersonRecord) : Dict × List Dict :=
  let d := (rowItems r).foldl (fun d p => dictMergeOne d p.1 p.2) acc.1
  (d, acc.2 ++ [d])

/-- Source lines 26-31: the whole accumulation loop, started from
`d, a = \x7b\x7d, []`, run over the rows the cursor yields. -/
def accumulateMappings (rows : List SalespersonRecord) : List Dict :=
  (rows.foldl accumStep ([], [])).2

/-- `fetchAllRecordsAsMappings` (spec section 4.1): unfiltered read projected
through the accumulation loop of source lines 23-31. -/
def fetchAllRecordsAsMappings (s : Store) : List Dict :=
  accumulateMappings s.rows

/-- Source line 33: the per-row dict comprehension
`\x7bcolumn:value for column, value in rowproxy.items()\x7d`, which is also
the spec's fresh-mapping-per-row formulation (spec sections 4.1 and 9). -/
def freshRowMapping (r : SalespersonRecord) : Dict :=
  (rowItems r).foldl (fun d p => dictMergeOne d p.1 p.2) []

/-- Source line 23: the live result cursor of `SELECT * FROM salesperson`; it
holds the rows not yet yielded. -/
structure ResultProxy where
  remaining : List SalespersonRecord
  deriving DecidableEq, Repr

def execSelectAll (s : Store) : ResultProxy := ⟨s.rows⟩

/-- Iterating a cursor yields its remaining rows and leaves it exhausted. -/
def consumeAll (rp : ResultProxy) : List SalespersonRecord × ResultProxy :=
  (rp.remaining, ⟨[]⟩)

/-- Source lines 23-33 as one read section: execute the SELECT once, run the
accumulation loop over the cursor (first pass), then run the per-row dict
comprehension over the SAME cursor object (second pass, line 33). -/
def readBothPasses (s : Store) : List Dict × List Dict :=
  let rp := execSelectAll s
  let p1 := consumeAll rp
  let a := (p1.1.foldl accumStep ([], [])).2
  let p2 := consumeAll p1.2
  (a, p2.1.map freshRowMapping)

/-- The helper ids the backend hands out to one batch: consecutive, starting
at `start`, one per inserted name. -/
def assignedBatch (start : Int) : List String → List SalespersonRecord
  | [] => []
  | n :: rest => ⟨start, n⟩ :: assignedBatch (start + 1) rest

/-- Store states reachable through the session's operations from a fresh
in-memory database. -/
inductive Reachable : Store → Prop
  | init : Reachable emptyStore
  | schema (s : Store) : Reachable s → Reachable (initializeSchema s).1
  | insert (s : Store) (names : List String) :
      Reachable s →
      Reachable (insertRecordsTransactionally ⟨s, none⟩ names).1.committed

/-- Declared column list of source lines 3-6: `id INTEGER NOT NULL`,
`name VARCHAR` (no NOT NULL on name). -/
structure ColumnDef where
  name : String
  declaredType : String
  notNull : Bool
  deriving DecidableEq, Repr

def createTableColumns : List ColumnDef :=
  [⟨"id", "INTEGER", true⟩, ⟨"name", "VARCHAR", false⟩]

/-- Source line 6: `PRIMARY KEY (id)`. -/
def primaryKeyColumns : List String := ["id"]

/-- The DDL of source lines 3-6 declares no UNIQUE constraint. -/
def uniqueConstraints : List (List String) := []

inductive Affinity
  | integer | text | blob | real | numeric
  deriving DecidableEq, Repr

/-- `charsLeading sub l`: `sub` is a leading segment of `l`. -/
def charsLeading : List Char → List Char → Bool
  | [], _ => true
  | _ :: _, [] => false
  | a :: as, b :: bs => a == b && charsLeading as bs

/-- `charsWithin sub l`: `sub` occurs contiguously somewhere inside `l`. -/
def charsWithin (sub : List Char) : List Char → Bool
  | [] => charsLeading sub []
  | b :: bs => charsLeading sub (b :: bs) || charsWithin sub bs

def containsTok (t sub : String) : Bool := charsWithin sub.toList t.toList

/-- SQLite's declared-type-to-affinity rule (SQLite datatype documentation,
section 3.1). -/
def typeAffinity (t : String) : Affinity :=
  if containsTok t "INT" then .integer
  else if containsTok t "CHAR" || containsTok t "CLOB" || containsTok t "TEXT" then .text
  else if containsTok t "BLOB" || t = "" then .blob
  else if containsTok t "REAL" || containsTok t "FLOA" || containsTok t "DOUB" then .real
  else .numeric

/-- The three names the script inserts (source lines 14-15). -/
def scriptNames : List String := ["John Doe", "Margaret", "Anna"]

/-- Store after the script's CREATE TABLE (source lines 3-6). -/
def scriptSchemaStore : Store := (initializeSchema emptyStore).1

/-- Connection after the script's transactional insert (source lines 12-16). -/
def scriptConn : Conn :=
  (insertRecordsTransactionally ⟨scriptSchemaStore, none⟩ scriptNames).1

/-- Visible store when the script starts reading (source line 19 onwards). -/
def scriptStore : Store := scriptConn.committed

/-! Helper lemmas about the accumulation loop. -/

theorem mergeRow_nil (r : SalespersonRecord) :
    (rowItems r).foldl (fun d p => dictMergeOne d p.1 p.2) [] = rowItems r := rfl

theorem mergeRow_rowItems (r r' : SalespersonRecord) :
    (rowItems r).foldl (fun d p => dictMergeOne d p.1 p.2) (rowItems r') = rowItems r := rfl

theorem accum_go (rows : List SalespersonRecord) :
    ∀ (acc : List Dict) (d : Dict), (d = [] ∨ ∃ r0, d = rowItems r0) →
      (rows.foldl accumStep (d, acc)).2 = acc ++ rows.map rowItems := by
  induction rows with
  | nil => intro acc d _; simp
  | cons r rest ih =>
      intro acc d hd
      have hstep : (rowItems r).foldl (fun d p => dictMergeOne d p.1 p.2) d = rowItems r := by
        rcases hd with h | ⟨r0, h⟩
        · rw [h]; exact mergeRow_nil r
        · rw [h]; exact mergeRow_rowItems r r0
      have hone : accumStep (d, acc) r = (rowItems r, acc ++ [rowItems r]) := by
        simp [accumStep, hstep]
      rw [List.foldl_cons, hone, ih (acc ++ [rowItems r]) (rowItems r) (Or.inr ⟨r, rfl⟩)]
      simp

/-! Helper lemmas about id assignment. -/

theorem le_foldl_max (l : List Int) (a : Int) : a ≤ l.foldl max a := by
  induction l generalizing a with
  | nil => exact le_refl a
  | cons x xs ih =>
      simp only [List.foldl_cons]
      exact le_trans (le_max_left a x) (ih (max a x))

theorem mem_le_foldl_max (l : List Int) (x : Int) (hx : x ∈ l) (a : Int) :
    x ≤ l.foldl max a := by
  induction l generalizing a with
  | nil => cases hx
  | cons y ys ih =>
      simp only [List.foldl_cons]
      rcases List.mem_cons.mp hx with h | h
      · rw [h]; exact le_trans (le_max_right a y) (le_foldl_max ys (max a y))
      · exact ih h (max a y)

theorem id_lt_nextId (rows : List SalespersonRecord) (r : SalespersonRecord)
    (hr : r ∈ rows) : r.id < nextId rows := by
  have h := mem_le_foldl_max (rows.map SalespersonRecord.id) r.id
    (List.mem_map_of_mem _ hr) 0
  unfold nextId
  omega

theorem nextId_append (rows : List SalespersonRecord) (n : String) :
    nextId (rows ++ [⟨nextId rows, n⟩]) = nextId rows + 1 := by
  have h :
      (List.map SalespersonRecord.id (rows ++ [⟨nextId rows, n⟩])).foldl max 0
        = max ((rows.map SalespersonRecord.id).foldl max 0) (nextId rows) := by
    simp [List.foldl_append]
  unfold nextId
  unfold nextId at h
  rw [h, max_eq_right (by omega)]

theorem insertRows_eq_append (names : List String) :
    ∀ rows, insertRows rows names = rows ++ assignedBatch (nextId rows) names := by
  induction names with
  | nil => intro rows; simp [insertRows, assignedBatch]
  | cons n rest ih =>
      intro rows
      show insertRows (rows ++ [⟨nextId rows, n⟩]) rest = _
      rw [ih, nextId_append]
      simp [assignedBatch]

theorem assignedBatch_id_ge (names : List String) :
    ∀ (start : Int) (r : SalespersonRecord), r ∈ assignedBatch start names → start ≤ r.id := by
  induction names with
  | nil => intro start r hr; cases hr
  | cons n rest ih =>
      intro start r hr
      rcases List.mem_cons.mp hr with h | h
      · rw [h]
      · have := ih (start + 1) r h; omega

theorem assignedBatch_ids_sorted (names : List String) :
    ∀ start : Int, ((assignedBatch start names).map SalespersonRecord.id).Pairwise (· < ·) := by
  induction names with
  | nil => intro start; simp [assignedBatch]
  | cons n rest ih =>
      intro start
      simp only [assignedBatch, List.map_cons]
      refine List.Pairwise.cons ?_ (ih (start + 1))
      intro x hx
      rcases List.mem_map.mp hx with ⟨r, hr, hid⟩
      have := assignedBatch_id_ge rest (start + 1) r hr
      omega

theorem assignedBatch_names (names : List String) :
    ∀ start : Int, (assignedBatch start names).map SalespersonRecord.name = names := by
  induction names with
  | nil => intro start; rfl
  | cons n rest ih => intro start; simp [assignedBatch, ih]

theorem insertRows_pairwise (rows : List SalespersonRecord) (names : List String)
    (h : (rows.map SalespersonRecord.id).Pairwise (· < ·)) :
    ((insertRows rows names).map SalespersonRecord.id).Pairwise (· < ·) := by
  rw [insertRows_eq_append, List.map_append, List.pairwise_append]
  refine ⟨h, assignedBatch_ids_sorted names (nextId rows), ?_⟩
  intro a ha b hb
  rcases List.mem_map.mp ha with ⟨r, hr, hra⟩
  rcases List.mem_map.mp hb with ⟨r', hr', hrb⟩
  have h1 := id_lt_nextId rows r hr
  have h2 := assignedBatch_id_ge names (nextId rows) r' hr'
  omega

theorem reachable_rows_sorted (s : Store) (h : Reachable s) :
    (s.rows.map SalespersonRecord.id).Pairwise (· < ·) := by
  induction h with
  | init => simp [emptyStore]
  | schema s hs ih =>
      have hrows : (initializeSchema s).1.rows = s.rows := by
        unfold initializeSchema; split <;> rfl
      rw [hrows]; exact ih
  | insert s names hs ih =>
      cases names with
      | nil => exact ih
      | cons n rest =>
          by_cases ht : s.tableExists
          · have hc : (insertRecordsTransactionally ⟨s, none⟩ (n :: rest)).1.committed
                = { s with rows := insertRows s.rows (n :: rest) } := by
              simp [insertRecordsTransactionally, beginTxn, execInsert, commitTxn, ht]
            rw [hc]
            exact insertRows_pairwise s.rows (n :: rest) ih
          · have hc : (insertRecordsTransactionally ⟨s, none⟩ (n :: rest)).1.committed = s := by
              simp [insertRecordsTransactionally, beginTxn, execInsert, rollbackTxn, ht]
            rw [hc]; exact ih

/-! The claims. -/

/-- C1: after inserting the names ["John Doe", "Margaret", "Anna"] via the
transactional insert into the freshly created salesperson table,
fetchAllRecordsAsMappings returns exactly three mappings, each containing
exactly the keys id and name; the multiset of name values equals the three
inserted names; and the three id values are pairwise distinct integers. -/
theorem roundTrip_c1 :
    (fetchAllRecordsAsMappings scriptStore).length = 3 ∧
    (∀ m ∈ fetchAllRecordsAsMappings scriptStore, m.map Prod.fst = ["id", "name"]) ∧
    List.Perm
      ((fetchAllRecordsAsMappings scriptStore).filterMap (fun m => dictLookup m "name"))
      [Value.strV "John Doe", Value.strV "Margaret", Value.strV "Anna"] ∧
    ((fetchAllRecordsAsMappings scriptStore).filterMap (fun m => dictLookup m "id")).Nodup ∧
    ((fetchAllRecordsAsMappings scriptStore).filterMap (fun m => dictLookup m "id")).length = 3 ∧
    (∀ m ∈ fetchAllRecordsAsMappings scriptStore,
      Option.all Value.isInt (dictLookup m "id") = true) := by
  decide

/-- C2: whenever insertRecordsTransactionally fails after the transaction has
begun, a rollback is performed before the error is surfaced (no transaction is
left pending) and the committed table contents after the failed call — and at
every intermediate point of the call — are exactly the contents before it. -/
theorem rollback_c2 (c : Conn) (names : List String) (e : DBError)
    (h : (insertRecordsTransactionally c names).2 = some e) :
    (insertRecordsTransactionally c names).1.committed = c.committed ∧
    (insertRecordsTransactionally c names).1.pending = none ∧
    (beginTxn c).committed = c.committed ∧
    (execInsert (beginTxn c) names).1.committed = c.committed := by
  cases names with
  | nil => simp [insertRecordsTransactionally] at h
  | cons n rest =>
      by_cases ht : c.committed.tableExists
      · simp [insertRecordsTransactionally, beginTxn, execInsert, ht] at h
      · simp [insertRecordsTransactionally, beginTxn, execInsert, rollbackTxn, ht]

/-- Witness for C2: on a store whose table was never created, inserting one
name fails with schemaConflict, and the failed call leaves the committed
contents untouched and no transaction pending. -/
theorem rollback_c2_witness :
    (insertRecordsTransactionally ⟨⟨false, []⟩, none⟩ ["x"]).2
      = some DBError.schemaConflict ∧
    ((insertRecordsTransactionally ⟨⟨false, []⟩, none⟩ ["x"]).1.committed
        = (⟨⟨false, []⟩, none⟩ : Conn).committed ∧
      (insertRecordsTransactionally ⟨⟨false, []⟩, none⟩ ["x"]).1.pending = none ∧
      (beginTxn ⟨⟨false, []⟩, none⟩).committed = (⟨⟨false, []⟩, none⟩ : Conn).committed ∧
      (execInsert (beginTxn ⟨⟨false, []⟩, none⟩) ["x"]).1.committed
        = (⟨⟨false, []⟩, none⟩ : Conn).committed) :=
  ⟨rfl, rollback_c2 ⟨⟨false, []⟩, none⟩ ["x"] DBError.schemaConflict rfl⟩

/-- C3: for every table contents, the mutate-and-reuse accumulator loop of
source lines 26-31 produces, row for row, exactly the same sequence of
mappings as the fresh-mapping-per-row dict comprehension of source line 33:
each returned mapping is exactly its own row's column-to-value mapping, so no
mapping contains another row's data. -/
theorem accumulator_fresh_c3 :
    ∀ s : Store,
      fetchAllRecordsAsMappings s = s.rows.map freshRowMapping ∧
      (∀ r ∈ s.rows, freshRowMapping r = rowItems r) := by
  intro s
  constructor
  · have h := accum_go s.rows [] [] (Or.inl rfl)
    unfold fetchAllRecordsAsMappings accumulateMappings
    rw [h, List.nil_append]
    have hf : freshRowMapping = rowItems := funext fun r => mergeRow_nil r
    rw [hf]
  · intro r _
    exact mergeRow_nil r

/-- C4: running the CREATE TABLE command a second time on the same open store
fails with SchemaConflict and leaves the store — in particular every existing
row — unchanged. -/
theorem schemaTwice_c4 (s : Store) (h : (initializeSchema s).2 = none) :
    (initializeSchema (initializeSchema s).1).2 = some DBError.schemaConflict ∧
    (initializeSchema (initializeSchema s).1).1.rows = (initializeSchema s).1.rows ∧
    (initializeSchema (initializeSchema s).1).1 = (initializeSchema s).1 := by
  by_cases ht : s.tableExists
  · simp [initializeSchema, ht] at h
  · simp [initializeSchema, ht]

/-- Witness for C4: on the fresh store, the first CREATE TABLE succeeds and
the second fails with SchemaConflict leaving the store unchanged. -/
theorem schemaTwice_c4_witness :
    (initializeSchema (initializeSchema emptyStore).1).2 = some DBError.schemaConflict ∧
    (initializeSchema (initializeSchema emptyStore).1).1.rows
      = (initializeSchema emptyStore).1.rows ∧
    (initializeSchema (initializeSchema emptyStore).1).1 = (initializeSchema emptyStore).1 :=
  schemaTwice_c4 emptyStore rfl

/-- C5: insertRecordsTransactionally applied to the empty sequence of names
succeeds (no error), opens no transaction, and leaves the connection — hence
the table's contents and row count — unchanged. -/
theorem emptyInsert_c5 :
    ∀ c : Conn, insertRecordsTransactionally c [] = (c, none) :=
  fun _ => rfl

/-- C6: on a store whose table exists, fetchFirstRecord never errors; it
returns the absent result exactly when the salesperson table is empty, and on
a non-empty table it returns one stored record. -/
theorem fetchFirst_c6 (s : Store) (h : s.tableExists = true) :
    (∀ e : DBError, fetchFirstRecord s ≠ Except.error e) ∧
    (fetchFirstRecord s = Except.ok none ↔ s.rows = []) ∧
    (s.rows ≠ [] → ∃ r, fetchFirstRecord s = Except.ok (some r) ∧ r ∈ s.rows) := by
  refine ⟨?_, ?_, ?_⟩
  · intro e
    simp [fetchFirstRecord, h]
  · simp [fetchFirstRecord, h, List.head?_eq_none_iff]
  · intro hne
    cases hr : s.rows with
    | nil => exact absurd hr hne
    | cons r t =>
        refine ⟨r, ?_, by simp [hr]⟩
        simp [fetchFirstRecord, h, hr]

/-- Witness for C6: on the created-but-empty store, fetchFirstRecord is the
absent result and not an error. -/
theorem fetchFirst_c6_witness :
    (∀ e : DBError, fetchFirstRecord ⟨true, []⟩ ≠ Except.error e) ∧
    (fetchFirstRecord ⟨true, []⟩ = Except.ok none ↔ (⟨true, []⟩ : Store).rows = []) ∧
    ((⟨true, []⟩ : Store).rows ≠ [] →
      ∃ r, fetchFirstRecord ⟨true, []⟩ = Except.ok (some r) ∧ r ∈ (⟨true, []⟩ : Store).rows) :=
  fetchFirst_c6 ⟨true, []⟩ rfl

/-- C7: in every reachable store state the stored ids are pairwise distinct;
an insert batch receives exactly the backend-assigned consecutive ids starting
at nextId (the caller's input reaches only the name column), and within one
batch the assigned ids are strictly increasing in insertion order. -/
theorem ids_c7 :
    (∀ s : Store, Reachable s → (s.rows.map SalespersonRecord.id).Nodup) ∧
    (∀ (rows : List SalespersonRecord) (names : List String),
      insertRows rows names = rows ++ assignedBatch (nextId rows) names) ∧
    (∀ (start : Int) (names : List String),
      ((assignedBatch start names).map SalespersonRecord.id).Pairwise (· < ·)) ∧
    (∀ (start : Int) (names : List String),
      (assignedBatch start names).map SalespersonRecord.name = names) := by
  refine ⟨?_, ?_, ?_, ?_⟩
  · intro s hs
    exact (reachable_rows_sorted s hs).imp (fun hlt => ne_of_lt hlt)
  · intro rows names; exact insertRows_eq_append names rows
  · intro start names; exact assignedBatch_ids_sorted names start
  · intro start names; exact assignedBatch_names names start

/-- Witness for C7: the script's final store is reachable and its ids are
pairwise distinct; the script's batch is the assigned batch from nextId. -/
theorem ids_c7_witness :
    (scriptStore.rows.map SalespersonRecord.id).Nodup ∧
    insertRows [] scriptNames = [] ++ assignedBatch (nextId []) scriptNames :=
  ⟨ids_c7.1 scriptStore
      (Reachable.insert scriptSchemaStore scriptNames
        (Reachable.schema emptyStore Reachable.init)),
    ids_c7.2.1 [] scriptNames⟩

/-- C8: the CREATE TABLE command declares exactly the columns id and name;
id has INTEGER affinity and is the (only) primary-key column; name has TEXT
affinity, carries no NOT NULL declaration (nullable-by-schema), is not in the
primary key and no UNIQUE constraint is declared. -/
theorem schemaSurface_c8 :
    createTableColumns.map ColumnDef.name = ["id", "name"] ∧
    primaryKeyColumns = ["id"] ∧
    (∀ c ∈ createTableColumns, c.name = "id" →
      typeAffinity c.declaredType = Affinity.integer ∧ c.name ∈ primaryKeyColumns) ∧
    (∀ c ∈ createTableColumns, c.name = "name" →
      typeAffinity c.declaredType = Affinity.text ∧ c.notNull = false ∧
      c.name ∉ primaryKeyColumns) ∧
    uniqueConstraints = [] := by
  decide

/-- C9: immediately after the three-name batch insert into the freshly
created, previously empty table, fetchFirstRecord returns the record with id 1
and name "John Doe": ids are assigned 1, 2, 3 in insertion order and the
unordered first row coincides with the first-inserted row. -/
theorem firstRecord_c9 :
    fetchFirstRecord scriptStore = Except.ok (some ⟨1, "John Doe"⟩) ∧
    scriptStore.rows.map SalespersonRecord.id = [1, 2, 3] ∧
    scriptStore.rows.map SalespersonRecord.name = scriptNames :=
  ⟨rfl, by decide, by decide⟩

/-- C10: the result cursor of the unfiltered SELECT is consumed by the first
(accumulation-loop) pass, so the per-row dict comprehension running afterwards
over the same cursor object yields the empty list — for every store, hence in
particular for the script's three-row table. -/
theorem exhaustedCursor_c10 :
    (∀ s : Store,
      (readBothPasses s).2 = [] ∧ (readBothPasses s).1 = accumulateMappings s.rows) ∧
    (readBothPasses scriptStore).2 = [] ∧
    scriptStore.rows.length = 3 :=
  ⟨fun _ => ⟨rfl, rfl⟩, rfl, by decide⟩

end Salesperson
